import Mathlib

/-!
Shallow embedding of `src/extract_binary.py` (repository renjuashokan/scribble).

The script is a linear orchestration program: an archive extractor
(`ImageExtract`), an installer (`BinaryCopy`) and a `main` glue function.
All interaction with the operating system is made explicit here:

* the filesystem is a pair of lists (existing directories, existing files);
* every external command (`tar`, `7z`, `ls`, `mv`, `cp`, `chmod`) is an
  oracle `Env.exec : List String → FS → CmdResult × FS` — the command line
  that the script builds is passed to the oracle, which answers with a
  return code, a captured stdout and the new filesystem;
* the fresh working-directory names produced by `_mkdir`
  (in Python: `os.path.join(CURRENT_DIR, "out-" + datetime.now().strftime(...))`)
  come from an oracle `Env.gen : Nat → Path`, one name per call, numbered by
  a counter in the state — the timestamp is external input, so distinctness
  of the generated names is an explicit hypothesis where a theorem needs it;
* Python exceptions are `Except PyErr`; `print` appends to an output list;
* every filesystem-changing step of the script itself is also logged in an
  event trace (`Ev`), so that ordering properties (directory registered for
  cleanup before the next tool invocation, removal before move, ...) can be
  stated about a run.
-/

deriving instance DecidableEq for Except

namespace Scribble

abbrev Path := String

/-- Result of `subprocess.run(..., capture_output=True, check=False)`. -/
structure CmdResult where
  returncode : Nat
  stdout : String
  deriving Repr, DecidableEq

/-- Python exceptions raised by the script. -/
inductive PyErr where
  | valueError (msg : String)
  | runtimeError (msg : String)
  | fileNotFoundError (path : Path)
  | indexError
  deriving Repr, DecidableEq

/-- Filesystem state: the set of existing directories and files, as lists. -/
structure FS where
  dirs : List Path
  files : List Path
  deriving Repr, DecidableEq

/-- Model of `os.path.isdir`. -/
def isdir (p : Path) (fs : FS) : Bool := decide (p ∈ fs.dirs)

/-- Model of `os.path.isfile`. -/
def isfile (p : Path) (fs : FS) : Bool := decide (p ∈ fs.files)

/-- Boolean list-prefix test by structural recursion (kernel-reducible,
unlike the substring-based core String functions). -/
def charsPrefixOf : List Char → List Char → Bool
  | [], _ => true
  | _ :: _, [] => false
  | a :: as, b :: bs => a == b && charsPrefixOf as bs

/-- Whether `q` lies inside the tree rooted at `p` (used by recursive removal). -/
def isUnder (p q : Path) : Bool := p == q || charsPrefixOf (p ++ "/").data q.data

/-- Semantic effect of `shutil.rmtree p`: every directory and file in the
tree rooted at `p` disappears. -/
def rmtree (p : Path) (fs : FS) : FS :=
  { dirs := fs.dirs.filter (fun q => !(isUnder p q)),
    files := fs.files.filter (fun q => !(isUnder p q)) }

/-- Model of `Path(p).mkdir(parents=True, exist_ok=True)` (the created
ancestors are not tracked; no claim depends on them). -/
def mkdirp (p : Path) (fs : FS) : FS :=
  if isdir p fs then fs else { fs with dirs := p :: fs.dirs }

/-- Events logged by the script itself, in program order: a directory made by
`ImageExtract._mkdir`, a directory made by `Path(...).mkdir`, an append to
`items_to_clean`, a `shutil.rmtree`, and one external command together with
the return code the oracle answered. -/
inductive Ev where
  | mkdirEv (p : Path)
  | mkdirpEv (p : Path)
  | appendEv (p : Path)
  | rmtreeEv (p : Path)
  | execEv (cmd : List String) (rc : Nat)
  deriving Repr, DecidableEq

/-- Program state threaded through the embedding: the filesystem, the
extractor field `items_to_clean`, everything printed so far, the event
trace and the counter feeding the fresh-name oracle. -/
structure SState where
  fs : FS
  items_to_clean : List Path
  output : List String
  trace : List Ev
  freshCounter : Nat
  deriving Repr, DecidableEq

/-- The external world: results and filesystem effects of the external
commands, and the timestamp-derived fresh directory names. -/
structure Env where
  exec : List String → FS → CmdResult × FS
  gen : Nat → Path

/-- Model of `subprocess.run(cmd, capture_output=True, check=False)`. -/
def runExec (env : Env) (cmd : List String) (s : SState) : CmdResult × SState :=
  let r := env.exec cmd s.fs
  (r.1, { s with fs := r.2, trace := s.trace ++ [Ev.execEv cmd r.1.returncode] })

/-- Model of `print`. -/
def pr (s : SState) (msg : String) : SState :=
  { s with output := s.output ++ [msg] }

/-- Rendering of a `CompletedProcess` value passed to `print`. -/
def showCmdResult (r : CmdResult) : String :=
  "CompletedProcess returncode " ++ toString r.returncode ++ " stdout " ++ r.stdout

-- Constants of the script.

def MODULEDESCRIPTOR : String := "moduledescriptor.xml"

def GAMES_DIR : Path := "/games/games/"

def MGS_DIR : Path := "/games/"

/-- Model of `os.path.join a b` for POSIX paths. -/
def pathJoin (a b : Path) : Path :=
  if charsPrefixOf "/".data b.data then b
  else if a == "" then b
  else if charsPrefixOf "/".data a.data.reverse then a ++ b
  else a ++ "/" ++ b

/-- Last index of `c` in `cs` (index counted from the front), mirroring
Python `str.rfind` restricted to found/not-found. -/
def lastIdxOf (cs : List Char) (c : Char) : Option Nat :=
  match cs with
  | [] => none
  | x :: xs =>
    match lastIdxOf xs c with
    | some i => some (i + 1)
    | none => if x == c then some 0 else none

/-- Extension component of `os.path.splitext p` (CPython `posixpath`): the
suffix from the last dot of the basename, unless every character of the
basename before that dot is itself a dot. -/
def splitextExt (p : Path) : String :=
  let cs := p.data
  match lastIdxOf cs '.' with
  | none => ""
  | some d =>
    let start := match lastIdxOf cs '/' with
      | none => 0
      | some i => i + 1
    if start ≤ d then
      if ((cs.drop start).take (d - start)).any (fun ch => ch != '.') then
        String.mk (cs.drop d)
      else ""
    else ""

/-- Model of `os.path.dirname` (CPython `posixpath.dirname`). -/
def dirname (p : Path) : Path :=
  let cs := p.data
  match lastIdxOf cs '/' with
  | none => ""
  | some i =>
    let head := cs.take (i + 1)
    if head.all (fun c => c == '/') then String.mk head
    else String.mk ((head.reverse.dropWhile (fun c => c == '/')).reverse)

-- ImageExtract

/-- Model of `shutil.rmtree` as called by the script: succeeds on an existing
directory, raises `FileNotFoundError` otherwise. -/
def rmtreeS (p : Path) (s : SState) : SState :=
  { s with fs := rmtree p s.fs, trace := s.trace ++ [Ev.rmtreeEv p] }

/-- Fallible `shutil.rmtree`. -/
def shutil_rmtree (p : Path) (s : SState) : Except PyErr SState :=
  if isdir p s.fs then Except.ok (rmtreeS p s) else Except.error (PyErr.fileNotFoundError p)

/-- Loop body of `ImageExtract.do_cleanup`: for each tracked item, remove it
if it is still a directory. -/
def ImageExtract.do_cleanupLoop : List Path → SState → Except PyErr SState
  | [], s => Except.ok s
  | item :: rest, s =>
    if isdir item s.fs then
      match shutil_rmtree item s with
      | Except.ok s1 => ImageExtract.do_cleanupLoop rest s1
      | Except.error e => Except.error e
    else ImageExtract.do_cleanupLoop rest s

/-- Model of `ImageExtract.do_cleanup`. -/
def ImageExtract.do_cleanup (s : SState) : Except PyErr SState :=
  ImageExtract.do_cleanupLoop s.items_to_clean s

/-- Model of `ImageExtract._mkdir`: obtain the next timestamp-derived name
from the oracle, create the directory, log the event. -/
def ImageExtract._mkdir (env : Env) (s : SState) : Path × SState :=
  let outdir := env.gen s.freshCounter
  (outdir,
   { s with fs := mkdirp outdir s.fs,
            freshCounter := s.freshCounter + 1,
            trace := s.trace ++ [Ev.mkdirEv outdir] })

/-- Model of `self.items_to_clean.append(p)`. -/
def appendClean (p : Path) (s : SState) : SState :=
  { s with items_to_clean := s.items_to_clean ++ [p],
           trace := s.trace ++ [Ev.appendEv p] }

/-- Model of `ImageExtract.check_report_error`: on a non-zero return code,
print the result, run the cleanup and raise `RuntimeError(result.stdout)`.
A failure of the cleanup itself would propagate instead (that branch is
provably dead, see `ImageExtract.do_cleanup_ok`). -/
def ImageExtract.check_report_error (r : CmdResult) (s : SState) :
    Except PyErr Unit × SState :=
  if r.returncode != 0 then
    let s1 := pr s (showCmdResult r)
    match ImageExtract.do_cleanup s1 with
    | Except.ok s2 => (Except.error (PyErr.runtimeError r.stdout), s2)
    | Except.error e => (Except.error e, s1)
  else (Except.ok (), s)

/-- Model of `ImageExtract.extract_img_file`. -/
def ImageExtract.extract_img_file (env : Env) (image_file : Path) (s : SState) :
    Except PyErr (Option Path) × SState :=
  if splitextExt image_file != ".img" then
    match ImageExtract.do_cleanup s with
    | Except.ok s1 => (Except.error (PyErr.valueError ("incorrect file given " ++ image_file)), s1)
    | Except.error e => (Except.error e, s)
  else
    let s := pr s ("Extracting " ++ image_file)
    if isfile image_file s.fs then
      let m1 := ImageExtract._mkdir env s
      let newoutdir := m1.1
      let s := appendClean newoutdir m1.2
      let e1 := runExec env ["7z", "x", image_file, "-o" ++ newoutdir] s
      match ImageExtract.check_report_error e1.1 e1.2 with
      | (Except.error e, s) => (Except.error e, s)
      | (Except.ok _, s) =>
        let zero_img := pathJoin newoutdir "0.img"
        if isfile zero_img s.fs then
          let m2 := ImageExtract._mkdir env s
          let newoutdir2 := m2.1
          let e2 := runExec env ["7z", "x", zero_img, "-o" ++ newoutdir2] m2.2
          match ImageExtract.check_report_error e2.1 e2.2 with
          | (Except.error e, s) => (Except.error e, s)
          | (Except.ok _, s) => (Except.ok (some newoutdir2), s)
        else (Except.ok none, s)
    else (Except.ok none, s)

/-- Tokens of `stdout.decode().split()` (split on whitespace, no empties). -/
def pySplitTokens (stdout : String) : List String :=
  (stdout.split Char.isWhitespace).filter (fun t => t != "")

/-- Model of `ImageExtract.run`.  `filepathArg = none` models the default
argument (the file given at construction). Taking `tokens[0]` of an empty
token list is Python `IndexError`. -/
def ImageExtract.run (env : Env) (imagepath : Path) (filepathArg : Option Path)
    (s : SState) : Except PyErr (Option Path) × SState :=
  let filepath := filepathArg.getD imagepath
  let ext := splitextExt filepath
  let m0 := ImageExtract._mkdir env s
  let outdir := m0.1
  let s := appendClean outdir m0.2
  if ext == ".tgz" then
    let e1 := runExec env ["tar", "xzvf", filepath, "-C", outdir] s
    match ImageExtract.check_report_error e1.1 e1.2 with
    | (Except.error e, s) => (Except.error e, s)
    | (Except.ok _, s) =>
      match pySplitTokens e1.1.stdout with
      | [] => (Except.error PyErr.indexError, s)
      | t :: _ => ImageExtract.extract_img_file env (pathJoin outdir t) s
  else if ext == ".zip" || ext == ".7z" then
    let m1 := ImageExtract._mkdir env s
    let newoutdir2 := m1.1
    let s := appendClean newoutdir2 m1.2
    let e1 := runExec env ["7z", "x", filepath, "-o" ++ newoutdir2] s
    match ImageExtract.check_report_error e1.1 e1.2 with
    | (Except.error e, s) => (Except.error e, s)
    | (Except.ok _, s) =>
      let e2 := runExec env ["ls", newoutdir2] s
      match ImageExtract.check_report_error e2.1 e2.2 with
      | (Except.error e, s) => (Except.error e, s)
      | (Except.ok _, s) =>
        match pySplitTokens e2.1.stdout with
        | [] => (Except.error PyErr.indexError, s)
        | t :: _ => ImageExtract.extract_img_file env (pathJoin newoutdir2 t) s
  else if ext == ".img" then
    ImageExtract.extract_img_file env filepath s
  else
    ImageExtract.extract_img_file env "" s

-- BinaryCopy

/-- The installer object after a successful `__init__`. -/
structure BinaryCopy where
  module_type : String
  theme_name : String
  current_ext_path : String
  copy : Bool
  replace : Bool
  output_dir : String
  target : String
  deriving Repr, DecidableEq

/-- Model of `BinaryCopy.__init__`: pure construction — the only effects in
the source are a `print` and, for an unsupported module type, an immediate
`ValueError`; no filesystem operation is performed. -/
def BinaryCopy.init (module_type theme_name current_ext_path : String)
    (copy replace : Bool) : Except PyErr BinaryCopy :=
  if module_type == "MULTI_GAME_UI" then
    Except.ok
      { module_type, theme_name, current_ext_path, copy, replace,
        output_dir := MGS_DIR, target := pathJoin MGS_DIR theme_name }
  else if module_type == "GAME" then
    Except.ok
      { module_type, theme_name, current_ext_path, copy, replace,
        output_dir := GAMES_DIR, target := pathJoin GAMES_DIR theme_name }
  else
    Except.error (PyErr.valueError ("Copying not supported for type " ++ module_type))

/-- First statement of `BinaryCopy._run`: ensure `GAMES_DIR` exists. -/
def BinaryCopy.ensure_games_dir (s : SState) : SState :=
  if isdir GAMES_DIR s.fs then s
  else { s with fs := mkdirp GAMES_DIR s.fs, trace := s.trace ++ [Ev.mkdirpEv GAMES_DIR] }

/-- Model of `BinaryCopy.do_copy`: report a failed move/copy, otherwise run
the recursive `chmod 700` over `MGS_DIR` and report its failure; `True`
only when both succeeded. -/
def BinaryCopy.do_copy (env : Env) (r : CmdResult) (s : SState) : Bool × SState :=
  if r.returncode != 0 then
    (false, pr s ("copy failed, please copy manually " ++ showCmdResult r))
  else
    let e2 := runExec env ["chmod", "700", "-R", MGS_DIR] s
    if e2.1.returncode != 0 then
      (false, pr e2.2 ("Please set enough permission for /games " ++ showCmdResult e2.1))
    else (true, e2.2)

/-- Model of `BinaryCopy._run`.  The Python function returns `True`/`False`
from `do_copy` or falls through with `None`; it raises nothing. -/
def BinaryCopy._run (env : Env) (bc : BinaryCopy) (s : SState) : Option Bool × SState :=
  let s := BinaryCopy.ensure_games_dir s
  if bc.replace then
    let s := if isdir bc.target s.fs then rmtreeS bc.target s else s
    let e1 := runExec env ["mv", bc.current_ext_path, bc.output_dir] s
    let d := BinaryCopy.do_copy env e1.1 e1.2
    (some d.1, d.2)
  else if bc.copy then
    if isdir bc.target s.fs then
      (none, pr s ("directory exist, please copy manually " ++ bc.target))
    else
      let e1 := runExec env ["cp", "-rp", bc.current_ext_path, bc.output_dir] s
      let d := BinaryCopy.do_copy env e1.1 e1.2
      (some d.1, d.2)
  else (none, s)

/-- The success message printed by `BinaryCopy.run`. -/
def BinaryCopy.successMsg (bc : BinaryCopy) : String :=
  "Copied " ++ bc.theme_name ++ " to " ++ bc.output_dir ++ " successfully"

/-- Model of `BinaryCopy.run`: print the success message exactly when `_run`
returned a truthy value (`True`; `None` and `False` are falsy). -/
def BinaryCopy.run (env : Env) (bc : BinaryCopy) (s : SState) : SState :=
  let d := BinaryCopy._run env bc s
  if d.1 == some true then pr d.2 (BinaryCopy.successMsg bc) else d.2

-- main (the post-extraction rename fragment, lines 284-288 of the script)

/-- Model of the fragment of `main` that renames the extraction result:
`gamedir = join(dirname(outdir), theme_name)`; if a directory already exists
there it is removed with `shutil.rmtree`; then `mv outdir gamedir` runs
(return code unchecked) and the success line is printed. -/
def main_move_to_gamedir (env : Env) (outdir theme_name : Path) (s : SState) :
    Path × SState :=
  let gamedir := pathJoin (dirname outdir) theme_name
  let s := if isdir gamedir s.fs then rmtreeS gamedir s else s
  let e1 := runExec env ["mv", outdir, gamedir] s
  let s := pr e1.2 ("successfully extracted the image to " ++ gamedir)
  (gamedir, s)

-- Trace predicates used to state the cleanup-registration invariant.

/-- Ev is an external command invocation. -/
def Ev.isExecEv : Ev → Bool
  | Ev.execEv _ _ => true
  | _ => false

/-- Ev is a `shutil.rmtree` call. -/
def Ev.isRmtreeEv : Ev → Bool
  | Ev.rmtreeEv _ => true
  | _ => false

/-- Ev is an external command that returned a non-zero code. -/
def Ev.isFailedExecEv : Ev → Bool
  | Ev.execEv _ rc => rc != 0
  | _ => false

/-- Scanning forward from a `mkdirEv p`, the directory is registered for
cleanup before any external command runs: an `appendEv p` is met before any
`execEv` (and before the trace ends). -/
def appendBeforeExec (p : Path) : List Ev → Bool
  | [] => false
  | Ev.appendEv q :: rest => if q == p then true else appendBeforeExec p rest
  | Ev.execEv _ _ :: _ => false
  | _ :: rest => appendBeforeExec p rest

/-- The claimed invariant of a trace: every directory created by `_mkdir` is
appended to `items_to_clean` before any subsequent external command. -/
def cleanBeforeFail : List Ev → Bool
  | [] => true
  | Ev.mkdirEv p :: rest => appendBeforeExec p rest && cleanBeforeFail rest
  | _ :: rest => cleanBeforeFail rest

/-- The created directories violating the invariant. -/
def violations : List Ev → List Path
  | [] => []
  | Ev.mkdirEv p :: rest =>
    if appendBeforeExec p rest then violations rest else p :: violations rest
  | _ :: rest => violations rest

/-- All paths appended to `items_to_clean` along a trace. -/
def appendsOf : List Ev → List Path
  | [] => []
  | Ev.appendEv p :: rest => p :: appendsOf rest
  | _ :: rest => appendsOf rest

-- Concrete sample inputs for witnesses and counterexamples.

/-- An oracle whose commands all succeed with empty output and no filesystem
effect, and whose fresh names are "a", "aa", "aaa", ... -/
def envId : Env :=
  { exec := fun _ fs => ({ returncode := 0, stdout := "" }, fs),
    gen := fun n => String.mk (List.replicate (n + 1) 'a') }

/-- An initial state with an empty filesystem. -/
def sEmpty : SState :=
  { fs := { dirs := [], files := [] }, items_to_clean := [], output := [],
    trace := [], freshCounter := 0 }

/-- Witness input for C3: a GAME installer with the replace flag, and a
filesystem already holding both the games root and the target. -/
def bc3 : BinaryCopy :=
  { module_type := "GAME", theme_name := "t", current_ext_path := "/ext/t",
    copy := false, replace := true, output_dir := GAMES_DIR,
    target := pathJoin GAMES_DIR "t" }

def s3 : SState :=
  { fs := { dirs := ["/games/games/", "/games/games/t"], files := [] },
    items_to_clean := [], output := [], trace := [], freshCounter := 0 }

/-- Witness input for C4: a GAME installer with the copy flag and an
existing target. -/
def bc4 : BinaryCopy :=
  { module_type := "GAME", theme_name := "t", current_ext_path := "/ext/t",
    copy := true, replace := false, output_dir := GAMES_DIR,
    target := pathJoin GAMES_DIR "t" }

/-- Input on which C5 fails: neither flag set, but `/games/games/` absent. -/
def bcC5 : BinaryCopy :=
  { module_type := "GAME", theme_name := "t", current_ext_path := "/ext/t",
    copy := false, replace := false, output_dir := GAMES_DIR,
    target := pathJoin GAMES_DIR "t" }

/-- Sample failed command result. -/
def r1 : CmdResult := { returncode := 1, stdout := "" }

/-- Witness input for C7: a tracked directory that does exist, so the
cleanup performed on the error path is visible. -/
def s7 : SState :=
  { fs := { dirs := ["/cwd/old1"], files := [] }, items_to_clean := ["/cwd/old1"],
    output := [], trace := [], freshCounter := 0 }

/-- Witness input for C8: a filesystem holding the image file, used with an
oracle whose extraction produces no `0.img`. -/
def s8 : SState :=
  { fs := { dirs := [], files := ["/in/a.img"] }, items_to_clean := [],
    output := [], trace := [], freshCounter := 0 }

/-- Witness input for C10: a previous extraction already sits at the rename
target `/cwd/t`. -/
def s10 : SState :=
  { fs := { dirs := ["/cwd/t", "/cwd/out-1"], files := [] }, items_to_clean := [],
    output := [], trace := [], freshCounter := 0 }

/-- Input on which C1 fails: a disk image whose first unwrapped layer holds
a nested `0.img` (the oracle extracts successfully without changing the
filesystem, and the nested image is already visible at `aa/0.img`). -/
def s1cex : SState :=
  { fs := { dirs := [], files := ["/in/a.img", "aa/0.img"] }, items_to_clean := [],
    output := [], trace := [], freshCounter := 0 }

-- Filesystem lemmas

theorem isUnder_self (p : Path) : isUnder p p = true := by
  simp [isUnder]

theorem isdir_rmtree_self (p : Path) (fs : FS) : isdir p (rmtree p fs) = false := by
  simp [isdir, rmtree, List.mem_filter, isUnder]

theorem isdir_rmtree_mono {q p : Path} {fs : FS}
    (h : isdir q (rmtree p fs) = true) : isdir q fs = true := by
  simp only [isdir, rmtree, decide_eq_true_eq, List.mem_filter] at h ⊢
  exact h.1

theorem isdir_mkdirp_mono {q p : Path} {fs : FS}
    (h : isdir q fs = true) : isdir q (mkdirp p fs) = true := by
  simp only [isdir, mkdirp, decide_eq_true_eq] at h ⊢
  split
  · exact h
  · exact List.mem_cons_of_mem _ h

-- Cleanup lemmas

theorem do_cleanupLoop_spec (items : List Path) (s : SState) :
    ∃ s' evs, ImageExtract.do_cleanupLoop items s = Except.ok s' ∧
      s'.items_to_clean = s.items_to_clean ∧
      s'.output = s.output ∧
      s'.freshCounter = s.freshCounter ∧
      s'.trace = s.trace ++ evs ∧
      evs.all Ev.isRmtreeEv = true ∧
      (∀ q, isdir q s'.fs = true → isdir q s.fs = true) ∧
      (∀ it ∈ items, isdir it s'.fs = false) := by
  induction items generalizing s with
  | nil =>
    exact ⟨s, [], rfl, rfl, rfl, rfl, by simp, rfl, fun q h => h, by simp⟩
  | cons it rest ih =>
    by_cases h : isdir it s.fs = true
    · have hrm : shutil_rmtree it s = Except.ok (rmtreeS it s) := by
        simp [shutil_rmtree, h]
      obtain ⟨s', evs, hok, hitems, hout, hfc, htr, hall, hmono, hpost⟩ := ih (rmtreeS it s)
      refine ⟨s', Ev.rmtreeEv it :: evs, ?_, hitems, hout, hfc, ?_, ?_, ?_, ?_⟩
      · simp [ImageExtract.do_cleanupLoop, h, hrm, hok]
      · rw [htr]; simp [rmtreeS]
      · simpa [Ev.isRmtreeEv] using hall
      · intro q hq
        exact isdir_rmtree_mono (p := it) (hmono q hq)
      · intro x hx
        rcases List.mem_cons.mp hx with rfl | hx'
        · cases hcl : isdir x s'.fs with
          | false => rfl
          | true =>
            have h2 := hmono x hcl
            rw [show (rmtreeS x s).fs = rmtree x s.fs from rfl, isdir_rmtree_self] at h2
            exact absurd h2 (by simp)
        · exact hpost x hx'
    · replace h : isdir it s.fs = false := by simpa using h
      obtain ⟨s', evs, hok, hitems, hout, hfc, htr, hall, hmono, hpost⟩ := ih s
      refine ⟨s', evs, ?_, hitems, hout, hfc, htr, hall, hmono, ?_⟩
      · simp [ImageExtract.do_cleanupLoop, h, hok]
      · intro x hx
        rcases List.mem_cons.mp hx with rfl | hx'
        · cases hcl : isdir x s'.fs with
          | false => rfl
          | true => exact absurd (hmono x hcl) (by simp [h])
        · exact hpost x hx'

theorem do_cleanupLoop_noop (items : List Path) (s : SState)
    (h : ∀ it ∈ items, isdir it s.fs = false) :
    ImageExtract.do_cleanupLoop items s = Except.ok s := by
  induction items with
  | nil => rfl
  | cons it rest ih =>
    have h1 : isdir it s.fs = false := h it (by simp)
    simp only [ImageExtract.do_cleanupLoop, h1, Bool.false_eq_true, if_false]
    exact ih (fun x hx => h x (List.mem_cons_of_mem _ hx))

theorem do_cleanup_spec (s : SState) :
    ∃ s' evs, ImageExtract.do_cleanup s = Except.ok s' ∧
      s'.items_to_clean = s.items_to_clean ∧
      s'.output = s.output ∧
      s'.freshCounter = s.freshCounter ∧
      s'.trace = s.trace ++ evs ∧
      evs.all Ev.isRmtreeEv = true ∧
      (∀ q, isdir q s'.fs = true → isdir q s.fs = true) ∧
      (∀ it ∈ s.items_to_clean, isdir it s'.fs = false) :=
  do_cleanupLoop_spec s.items_to_clean s

/-- C9: the cleanup loop of the extractor never raises, tolerates directories
that are already gone, and a second call is a no-op. -/
theorem cleanup_idempotent_never_raises (s : SState) :
    ∃ s', ImageExtract.do_cleanup s = Except.ok s' ∧
      ImageExtract.do_cleanup s' = Except.ok s' := by
  obtain ⟨s', _, hok, hitems, _, _, _, _, _, hpost⟩ := do_cleanup_spec s
  refine ⟨s', hok, ?_⟩
  unfold ImageExtract.do_cleanup
  rw [hitems]
  exact do_cleanupLoop_noop _ _ hpost

-- BinaryCopy helper lemmas

theorem ensure_games_dir_isdir {q : Path} {s : SState}
    (h : isdir q s.fs = true) : isdir q (BinaryCopy.ensure_games_dir s).fs = true := by
  unfold BinaryCopy.ensure_games_dir
  split
  · exact h
  · exact isdir_mkdirp_mono h

theorem ensure_games_dir_trace (s : SState) :
    (BinaryCopy.ensure_games_dir s).trace =
      s.trace ++ (if isdir GAMES_DIR s.fs then [] else [Ev.mkdirpEv GAMES_DIR]) := by
  unfold BinaryCopy.ensure_games_dir
  split <;> simp_all

theorem ensure_games_dir_output (s : SState) :
    (BinaryCopy.ensure_games_dir s).output = s.output := by
  unfold BinaryCopy.ensure_games_dir
  split <;> rfl

theorem do_copy_trace (env : Env) (r : CmdResult) (s : SState) :
    ∃ rest, (BinaryCopy.do_copy env r s).2.trace = s.trace ++ rest := by
  unfold BinaryCopy.do_copy
  by_cases h : (r.returncode != 0) = true
  · rw [if_pos h]
    exact ⟨[], by simp [pr]⟩
  · rw [if_neg h]
    refine ⟨[Ev.execEv ["chmod", "700", "-R", MGS_DIR]
      (env.exec ["chmod", "700", "-R", MGS_DIR] s.fs).1.returncode], ?_⟩
    dsimp only
    split <;> simp [pr, runExec]

theorem do_copy_true (env : Env) (r : CmdResult) (s : SState)
    (h : (BinaryCopy.do_copy env r s).1 = true) :
    r.returncode = 0 ∧
    (BinaryCopy.do_copy env r s).2.trace =
      s.trace ++ [Ev.execEv ["chmod", "700", "-R", MGS_DIR] 0] := by
  unfold BinaryCopy.do_copy at h ⊢
  by_cases h0 : r.returncode = 0
  case neg =>
    rw [if_pos (by simpa using h0)] at h
    exact absurd h (by simp)
  case pos =>
    rw [if_neg (by simp [h0])] at h ⊢
    dsimp only at h ⊢
    by_cases h2 : (env.exec ["chmod", "700", "-R", MGS_DIR] s.fs).1.returncode = 0
    · refine ⟨h0, ?_⟩
      rw [if_neg (by simp [runExec, h2])]
      simp [runExec, h2]
    · rw [if_pos (by simp [runExec, h2])] at h
      exact absurd h (by simp)

theorem runExec_trace (env : Env) (cmd : List String) (s : SState) :
    (runExec env cmd s).2.trace =
      s.trace ++ [Ev.execEv cmd (runExec env cmd s).1.returncode] := rfl

theorem rmtreeS_trace (p : Path) (s : SState) :
    (rmtreeS p s).trace = s.trace ++ [Ev.rmtreeEv p] := rfl

theorem ensure_games_dir_fs (s : SState) :
    (BinaryCopy.ensure_games_dir s).fs =
      (if isdir GAMES_DIR s.fs then s.fs else mkdirp GAMES_DIR s.fs) := by
  unfold BinaryCopy.ensure_games_dir
  split <;> simp_all

/-- C2: the installer computes `/games/games/` as destination root for module
type GAME, `/games/` for MULTI_GAME_UI, and raises a `ValueError` for any
other module type.  The construction performs no filesystem operation at
all in the source (it only prints and computes the two path fields), which
the embedding reflects by `BinaryCopy.init` not touching any state. -/
theorem init_module_type_dispatch (mt tn cep : String) (c r : Bool) :
    (mt = "GAME" → ∃ bc, BinaryCopy.init mt tn cep c r = Except.ok bc ∧
        bc.output_dir = GAMES_DIR ∧ bc.target = pathJoin GAMES_DIR tn) ∧
    (mt = "MULTI_GAME_UI" → ∃ bc, BinaryCopy.init mt tn cep c r = Except.ok bc ∧
        bc.output_dir = MGS_DIR ∧ bc.target = pathJoin MGS_DIR tn) ∧
    (mt ≠ "GAME" → mt ≠ "MULTI_GAME_UI" →
        ∃ m, BinaryCopy.init mt tn cep c r = Except.error (PyErr.valueError m)) := by
  refine ⟨?_, ?_, ?_⟩
  · intro h
    subst h
    exact ⟨_, rfl, rfl, rfl⟩
  · intro h
    subst h
    exact ⟨_, rfl, rfl, rfl⟩
  · intro h1 h2
    unfold BinaryCopy.init
    rw [if_neg (by simpa using h2), if_neg (by simpa using h1)]
    exact ⟨_, rfl⟩

/-- Witness for C2 at the three concrete module types. -/
theorem init_module_type_dispatch_witness :
    (∃ bc, BinaryCopy.init "GAME" "mygame" "/ext/mygame" true false = Except.ok bc ∧
        bc.output_dir = GAMES_DIR ∧ bc.target = pathJoin GAMES_DIR "mygame") ∧
    (∃ bc, BinaryCopy.init "MULTI_GAME_UI" "ui" "/ext/ui" false true = Except.ok bc ∧
        bc.output_dir = MGS_DIR ∧ bc.target = pathJoin MGS_DIR "ui") ∧
    (∃ m, BinaryCopy.init "OTHER" "x" "/ext/x" false false =
        Except.error (PyErr.valueError m)) :=
  ⟨(init_module_type_dispatch "GAME" "mygame" "/ext/mygame" true false).1 rfl,
   (init_module_type_dispatch "MULTI_GAME_UI" "ui" "/ext/ui" false true).2.1 rfl,
   (init_module_type_dispatch "OTHER" "x" "/ext/x" false false).2.2
     (by decide) (by decide)⟩

/-- C3: under the replace flag with an existing target directory, `_run`
first removes the target tree recursively and then invokes `mv` with the
extracted source and the destination root — a move, not a copy; nothing
else happens in between. -/
theorem replace_removes_then_moves (env : Env) (bc : BinaryCopy) (s : SState)
    (hrep : bc.replace = true) (htgt : isdir bc.target s.fs = true)
    (htr : s.trace = []) :
    ∃ rc rest,
      (BinaryCopy._run env bc s).2.trace =
        (if isdir GAMES_DIR s.fs then ([] : List Ev) else [Ev.mkdirpEv GAMES_DIR]) ++
        [Ev.rmtreeEv bc.target,
         Ev.execEv ["mv", bc.current_ext_path, bc.output_dir] rc] ++ rest := by
  have h1 : isdir bc.target (BinaryCopy.ensure_games_dir s).fs = true :=
    ensure_games_dir_isdir htgt
  obtain ⟨rest, hdc⟩ := do_copy_trace env
    (runExec env ["mv", bc.current_ext_path, bc.output_dir]
      (rmtreeS bc.target (BinaryCopy.ensure_games_dir s))).1
    (runExec env ["mv", bc.current_ext_path, bc.output_dir]
      (rmtreeS bc.target (BinaryCopy.ensure_games_dir s))).2
  refine ⟨(runExec env ["mv", bc.current_ext_path, bc.output_dir]
      (rmtreeS bc.target (BinaryCopy.ensure_games_dir s))).1.returncode, rest, ?_⟩
  unfold BinaryCopy._run
  dsimp only
  rw [if_pos hrep, if_pos h1]
  dsimp only
  rw [hdc, runExec_trace, rmtreeS_trace, ensure_games_dir_trace, htr]
  simp

/-- Witness for C3. -/
theorem replace_removes_then_moves_witness :
    bc3.replace = true ∧ isdir bc3.target s3.fs = true ∧
    ∃ rc rest,
      (BinaryCopy._run envId bc3 s3).2.trace =
        (if isdir GAMES_DIR s3.fs then ([] : List Ev) else [Ev.mkdirpEv GAMES_DIR]) ++
        [Ev.rmtreeEv bc3.target,
         Ev.execEv ["mv", bc3.current_ext_path, bc3.output_dir] rc] ++ rest :=
  ⟨rfl, by decide, replace_removes_then_moves envId bc3 s3 rfl (by decide) rfl⟩

/-- C4: under the copy flag with an existing target directory, `_run` prints
the manual-intervention diagnostic, returns `None` (so it neither copies nor
raises), leaves the target directory in place, and invokes no external
command (the only possible state change is creating the games root). -/
theorem copy_existing_target_untouched (env : Env) (bc : BinaryCopy) (s : SState)
    (hc : bc.copy = true) (hr : bc.replace = false)
    (htgt : isdir bc.target s.fs = true) :
    BinaryCopy._run env bc s =
      (none, pr (BinaryCopy.ensure_games_dir s)
        ("directory exist, please copy manually " ++ bc.target)) ∧
    isdir bc.target (BinaryCopy._run env bc s).2.fs = true ∧
    (BinaryCopy._run env bc s).2.trace =
      s.trace ++ (if isdir GAMES_DIR s.fs then [] else [Ev.mkdirpEv GAMES_DIR]) ∧
    (BinaryCopy._run env bc s).2.output =
      s.output ++ ["directory exist, please copy manually " ++ bc.target] := by
  have h1 : isdir bc.target (BinaryCopy.ensure_games_dir s).fs = true :=
    ensure_games_dir_isdir htgt
  have heq : BinaryCopy._run env bc s =
      (none, pr (BinaryCopy.ensure_games_dir s)
        ("directory exist, please copy manually " ++ bc.target)) := by
    unfold BinaryCopy._run
    dsimp only
    rw [if_neg (by simp [hr]), if_pos hc, if_pos h1]
  refine ⟨heq, ?_, ?_, ?_⟩
  · rw [heq]
    exact h1
  · rw [heq]
    simpa [pr] using ensure_games_dir_trace s
  · rw [heq]
    simp [pr, ensure_games_dir_output]

/-- Witness for C4. -/
theorem copy_existing_target_untouched_witness :
    bc4.copy = true ∧ bc4.replace = false ∧ isdir bc4.target s3.fs = true ∧
    (BinaryCopy._run envId bc4 s3 =
      (none, pr (BinaryCopy.ensure_games_dir s3)
        ("directory exist, please copy manually " ++ bc4.target)) ∧
    isdir bc4.target (BinaryCopy._run envId bc4 s3).2.fs = true ∧
    (BinaryCopy._run envId bc4 s3).2.trace =
      s3.trace ++ (if isdir GAMES_DIR s3.fs then [] else [Ev.mkdirpEv GAMES_DIR]) ∧
    (BinaryCopy._run envId bc4 s3).2.output =
      s3.output ++ ["directory exist, please copy manually " ++ bc4.target]) :=
  ⟨rfl, rfl, by decide,
   copy_existing_target_untouched envId bc4 s3 rfl rfl (by decide)⟩

/-- C5 counterexample: with neither the copy flag nor the replace flag set,
a run is not a filesystem no-op — `_run` unconditionally creates
`/games/games/` when it is absent (the `mkdir` at the top of `_run` runs
before the flags are consulted). -/
theorem noflags_changes_fs_cex :
    BinaryCopy.init "GAME" "t" "/ext/t" false false = Except.ok bcC5 ∧
    bcC5.copy = false ∧ bcC5.replace = false ∧
    (BinaryCopy._run envId bcC5 sEmpty).2.fs ≠ sEmpty.fs := by decide

/-- C5 amended: with neither flag set, `_run` returns `None`, prints
nothing, invokes no external command, and changes no filesystem state other
than creating the games root `/games/games/` if it does not exist yet. -/
theorem noflags_no_command_amended (env : Env) (bc : BinaryCopy) (s : SState)
    (hc : bc.copy = false) (hr : bc.replace = false) :
    BinaryCopy._run env bc s = (none, BinaryCopy.ensure_games_dir s) ∧
    (BinaryCopy._run env bc s).2.output = s.output ∧
    (BinaryCopy._run env bc s).2.trace =
      s.trace ++ (if isdir GAMES_DIR s.fs then [] else [Ev.mkdirpEv GAMES_DIR]) ∧
    (BinaryCopy._run env bc s).2.fs =
      (if isdir GAMES_DIR s.fs then s.fs else mkdirp GAMES_DIR s.fs) := by
  have heq : BinaryCopy._run env bc s = (none, BinaryCopy.ensure_games_dir s) := by
    unfold BinaryCopy._run
    dsimp only
    rw [if_neg (by simp [hr]), if_neg (by simp [hc])]
  refine ⟨heq, ?_, ?_, ?_⟩
  · rw [heq]
    exact ensure_games_dir_output s
  · rw [heq]
    exact ensure_games_dir_trace s
  · rw [heq]
    exact ensure_games_dir_fs s

theorem ensure_events_ok (s : SState) (e : Ev)
    (he : e ∈ (if isdir GAMES_DIR s.fs then ([] : List Ev) else [Ev.mkdirpEv GAMES_DIR])) :
    e.isFailedExecEv = false := by
  split at he
  · simp at he
  · simp at he
    subst he
    rfl

theorem run_some_true_trace (env : Env) (bc : BinaryCopy) (s : SState)
    (htr : s.trace = []) (h : (BinaryCopy._run env bc s).1 = some true) :
    (∀ e ∈ (BinaryCopy._run env bc s).2.trace, e.isFailedExecEv = false) ∧
    Ev.execEv ["chmod", "700", "-R", MGS_DIR] 0 ∈ (BinaryCopy._run env bc s).2.trace ∧
    (Ev.execEv ["mv", bc.current_ext_path, bc.output_dir] 0 ∈
        (BinaryCopy._run env bc s).2.trace ∨
     Ev.execEv ["cp", "-rp", bc.current_ext_path, bc.output_dir] 0 ∈
        (BinaryCopy._run env bc s).2.trace) := by
  unfold BinaryCopy._run at h ⊢
  dsimp only at h ⊢
  by_cases hrep : bc.replace = true
  · rw [if_pos hrep] at h ⊢
    dsimp only at h ⊢
    have hd : (BinaryCopy.do_copy env
        (runExec env ["mv", bc.current_ext_path, bc.output_dir]
          (if isdir bc.target (BinaryCopy.ensure_games_dir s).fs then
            rmtreeS bc.target (BinaryCopy.ensure_games_dir s)
          else BinaryCopy.ensure_games_dir s)).1
        (runExec env ["mv", bc.current_ext_path, bc.output_dir]
          (if isdir bc.target (BinaryCopy.ensure_games_dir s).fs then
            rmtreeS bc.target (BinaryCopy.ensure_games_dir s)
          else BinaryCopy.ensure_games_dir s)).2).1 = true := by
      simpa using h
    obtain ⟨hrc, htrd⟩ := do_copy_true _ _ _ hd
    refine ⟨?_, ?_, Or.inl ?_⟩ <;>
      [skip; skip; skip] <;>
      rw [htrd, runExec_trace, hrc] <;>
      by_cases htgt : isdir bc.target (BinaryCopy.ensure_games_dir s).fs = true <;>
      simp only [htgt, if_true, if_false, Bool.false_eq_true, rmtreeS_trace,
        ensure_games_dir_trace, htr, List.nil_append]
    · intro e he
      rcases (by simpa using he :
          e ∈ (if isdir GAMES_DIR s.fs then ([] : List Ev) else [Ev.mkdirpEv GAMES_DIR]) ∨
          e = Ev.rmtreeEv bc.target ∨
          e = Ev.execEv ["mv", bc.current_ext_path, bc.output_dir] 0 ∨
          e = Ev.execEv ["chmod", "700", "-R", MGS_DIR] 0) with h1 | h1 | h1 | h1
      · exact ensure_events_ok s e h1
      · subst h1; rfl
      · subst h1; rfl
      · subst h1; rfl
    · intro e he
      rcases (by simpa using he :
          e ∈ (if isdir GAMES_DIR s.fs then ([] : List Ev) else [Ev.mkdirpEv GAMES_DIR]) ∨
          e = Ev.execEv ["mv", bc.current_ext_path, bc.output_dir] 0 ∨
          e = Ev.execEv ["chmod", "700", "-R", MGS_DIR] 0) with h1 | h1 | h1
      · exact ensure_events_ok s e h1
      · subst h1; rfl
      · subst h1; rfl
    · simp
    · simp
    · simp
    · simp
  · rw [if_neg hrep] at h ⊢
    by_cases hcopy : bc.copy = true
    · rw [if_pos hcopy] at h ⊢
      by_cases htgt : isdir bc.target (BinaryCopy.ensure_games_dir s).fs = true
      · rw [if_pos htgt] at h
        exact absurd h (by simp)
      · rw [if_neg htgt] at h ⊢
        dsimp only at h ⊢
        have hd : (BinaryCopy.do_copy env
            (runExec env ["cp", "-rp", bc.current_ext_path, bc.output_dir]
              (BinaryCopy.ensure_games_dir s)).1
            (runExec env ["cp", "-rp", bc.current_ext_path, bc.output_dir]
              (BinaryCopy.ensure_games_dir s)).2).1 = true := by
          simpa using h
        obtain ⟨hrc, htrd⟩ := do_copy_true _ _ _ hd
        refine ⟨?_, ?_, Or.inr ?_⟩ <;>
          rw [htrd, runExec_trace, hrc, ensure_games_dir_trace, htr]
        · intro e he
          rcases (by simpa using he :
              e ∈ (if isdir GAMES_DIR s.fs then ([] : List Ev) else [Ev.mkdirpEv GAMES_DIR]) ∨
              e = Ev.execEv ["cp", "-rp", bc.current_ext_path, bc.output_dir] 0 ∨
              e = Ev.execEv ["chmod", "700", "-R", MGS_DIR] 0) with h1 | h1 | h1
          · exact ensure_events_ok s e h1
          · subst h1; rfl
          · subst h1; rfl
        · simp
        · simp
    · rw [if_neg hcopy] at h
      exact absurd h (by simp)

/-- C6: a non-zero exit of the move/copy utility or of the recursive chmod
is a soft failure — a diagnostic instructing manual completion is printed
and `do_copy` simply returns `False` (in the source these paths raise
nothing; the embedding reflects that by `do_copy` and `_run` being
exception-free by type) — and `run` prints the success message exactly when
`_run` reported success, which requires every invoked external command
(both the move/copy and the chmod pass) to have exited with code 0. -/
theorem soft_failure_success_message (env : Env) (bc : BinaryCopy) (s : SState)
    (r : CmdResult) (htr : s.trace = []) :
    (r.returncode ≠ 0 →
      BinaryCopy.do_copy env r s =
        (false, pr s ("copy failed, please copy manually " ++ showCmdResult r))) ∧
    (r.returncode = 0 →
      (runExec env ["chmod", "700", "-R", MGS_DIR] s).1.returncode ≠ 0 →
      BinaryCopy.do_copy env r s =
        (false, pr (runExec env ["chmod", "700", "-R", MGS_DIR] s).2
          ("Please set enough permission for /games " ++
            showCmdResult (runExec env ["chmod", "700", "-R", MGS_DIR] s).1))) ∧
    ((BinaryCopy.run env bc s).output =
      (BinaryCopy._run env bc s).2.output ++
        (if (BinaryCopy._run env bc s).1 = some true then [BinaryCopy.successMsg bc]
         else [])) ∧
    ((BinaryCopy._run env bc s).1 = some true →
      (∀ e ∈ (BinaryCopy._run env bc s).2.trace, e.isFailedExecEv = false) ∧
      Ev.execEv ["chmod", "700", "-R", MGS_DIR] 0 ∈ (BinaryCopy._run env bc s).2.trace ∧
      (Ev.execEv ["mv", bc.current_ext_path, bc.output_dir] 0 ∈
          (BinaryCopy._run env bc s).2.trace ∨
       Ev.execEv ["cp", "-rp", bc.current_ext_path, bc.output_dir] 0 ∈
          (BinaryCopy._run env bc s).2.trace)) := by
  refine ⟨?_, ?_, ?_, run_some_true_trace env bc s htr⟩
  · intro h
    unfold BinaryCopy.do_copy
    rw [if_pos (by simpa using h)]
  · intro h0 h2
    unfold BinaryCopy.do_copy
    rw [if_neg (by simp [h0])]
    dsimp only
    rw [if_pos (by simpa using h2)]
  · unfold BinaryCopy.run
    dsimp only
    by_cases h : (BinaryCopy._run env bc s).1 = some true
    · simp [h, pr]
    · have hb : ((BinaryCopy._run env bc s).1 == some true) = false := by
        simpa using h
      simp [hb, h]

/-- Witness for C6. -/
theorem soft_failure_success_message_witness :
    sEmpty.trace = [] ∧
    ((r1.returncode ≠ 0 →
      BinaryCopy.do_copy envId r1 sEmpty =
        (false, pr sEmpty ("copy failed, please copy manually " ++ showCmdResult r1))) ∧
    (r1.returncode = 0 →
      (runExec envId ["chmod", "700", "-R", MGS_DIR] sEmpty).1.returncode ≠ 0 →
      BinaryCopy.do_copy envId r1 sEmpty =
        (false, pr (runExec envId ["chmod", "700", "-R", MGS_DIR] sEmpty).2
          ("Please set enough permission for /games " ++
            showCmdResult (runExec envId ["chmod", "700", "-R", MGS_DIR] sEmpty).1))) ∧
    ((BinaryCopy.run envId bc3 sEmpty).output =
      (BinaryCopy._run envId bc3 sEmpty).2.output ++
        (if (BinaryCopy._run envId bc3 sEmpty).1 = some true then [BinaryCopy.successMsg bc3]
         else [])) ∧
    ((BinaryCopy._run envId bc3 sEmpty).1 = some true →
      (∀ e ∈ (BinaryCopy._run envId bc3 sEmpty).2.trace, e.isFailedExecEv = false) ∧
      Ev.execEv ["chmod", "700", "-R", MGS_DIR] 0 ∈ (BinaryCopy._run envId bc3 sEmpty).2.trace ∧
      (Ev.execEv ["mv", bc3.current_ext_path, bc3.output_dir] 0 ∈
          (BinaryCopy._run envId bc3 sEmpty).2.trace ∨
       Ev.execEv ["cp", "-rp", bc3.current_ext_path, bc3.output_dir] 0 ∈
          (BinaryCopy._run envId bc3 sEmpty).2.trace))) :=
  ⟨rfl, soft_failure_success_message envId bc3 sEmpty r1 rfl⟩

/-- Witness for the amended C5. -/
theorem noflags_no_command_amended_witness :
    bcC5.copy = false ∧ bcC5.replace = false ∧
    (BinaryCopy._run envId bcC5 sEmpty = (none, BinaryCopy.ensure_games_dir sEmpty) ∧
    (BinaryCopy._run envId bcC5 sEmpty).2.output = sEmpty.output ∧
    (BinaryCopy._run envId bcC5 sEmpty).2.trace =
      sEmpty.trace ++ (if isdir GAMES_DIR sEmpty.fs then [] else [Ev.mkdirpEv GAMES_DIR]) ∧
    (BinaryCopy._run envId bcC5 sEmpty).2.fs =
      (if isdir GAMES_DIR sEmpty.fs then sEmpty.fs else mkdirp GAMES_DIR sEmpty.fs)) :=
  ⟨rfl, rfl, noflags_no_command_amended envId bcC5 sEmpty rfl rfl⟩

-- Extractor lemmas

/-- If `splitext` reports extension `.img`, the path literally ends in `.img`
(the extension is a suffix of the path by construction). -/
theorem splitextExt_img_suffix {p : Path} (h : splitextExt p = ".img") :
    (".img" : String).data <:+ p.data := by
  unfold splitextExt at h
  dsimp only at h
  rcases hd : lastIdxOf p.data '.' with _ | d
  · rw [hd] at h
    dsimp only at h
    exact absurd h (by decide)
  · rw [hd] at h
    dsimp only at h
    split at h
    · split at h
      · have h2 : p.data.drop d = (".img" : String).data := congrArg String.data h
        rw [← h2]
        exact List.drop_suffix d p.data
      · exact absurd h (by decide)
    · exact absurd h (by decide)

theorem check_report_error_ok (r : CmdResult) (s : SState) (h : r.returncode = 0) :
    ImageExtract.check_report_error r s = (Except.ok (), s) := by
  unfold ImageExtract.check_report_error
  rw [if_neg (by simp [h])]

/-- C7: a path whose name does not end in `.img` makes `extract_img_file`
clean up every tracked directory and raise a `ValueError`, with no external
tool invoked (the trace gains only `rmtree` events). -/
theorem extract_wrong_extension_cleanup_error (env : Env) (imgf : Path) (s : SState)
    (h : ¬ ((".img" : String).data <:+ imgf.data)) :
    (∃ m, (ImageExtract.extract_img_file env imgf s).1 =
        Except.error (PyErr.valueError m)) ∧
    (∀ it ∈ s.items_to_clean,
        isdir it (ImageExtract.extract_img_file env imgf s).2.fs = false) ∧
    (∃ evs, (ImageExtract.extract_img_file env imgf s).2.trace = s.trace ++ evs ∧
        evs.all Ev.isRmtreeEv = true) := by
  have hne : splitextExt imgf ≠ ".img" := fun hc => h (splitextExt_img_suffix hc)
  have hb : (splitextExt imgf != ".img") = true := by simpa using hne
  obtain ⟨s', evs, hok, hitems, hout, hfc, htr2, hall, hmono, hpost⟩ := do_cleanup_spec s
  unfold ImageExtract.extract_img_file
  rw [if_pos hb, hok]
  exact ⟨⟨_, rfl⟩, hpost, ⟨evs, htr2, hall⟩⟩

/-- Witness for C7. -/
theorem extract_wrong_extension_cleanup_error_witness :
    ¬ ((".img" : String).data <:+ ("/in/a.txt" : Path).data) ∧
    ((∃ m, (ImageExtract.extract_img_file envId "/in/a.txt" s7).1 =
        Except.error (PyErr.valueError m)) ∧
    (∀ it ∈ s7.items_to_clean,
        isdir it (ImageExtract.extract_img_file envId "/in/a.txt" s7).2.fs = false) ∧
    (∃ evs, (ImageExtract.extract_img_file envId "/in/a.txt" s7).2.trace =
        s7.trace ++ evs ∧ evs.all Ev.isRmtreeEv = true)) :=
  ⟨by decide, extract_wrong_extension_cleanup_error envId "/in/a.txt" s7 (by decide)⟩

/-- C8: on a disk image (path ending in `.img`, file present) whose first
unwrapped layer contains no file named `0.img`, `extract_img_file` returns
`None` — an absent value, neither a directory path nor an exception. -/
theorem extract_no_nested_img_yields_none (env : Env) (imgf : Path) (s : SState)
    (hext : splitextExt imgf = ".img")
    (hfile : isfile imgf s.fs = true)
    (hrc : (env.exec ["7z", "x", imgf, "-o" ++ env.gen s.freshCounter]
        (mkdirp (env.gen s.freshCounter) s.fs)).1.returncode = 0)
    (hzero : isfile (pathJoin (env.gen s.freshCounter) "0.img")
        (env.exec ["7z", "x", imgf, "-o" ++ env.gen s.freshCounter]
          (mkdirp (env.gen s.freshCounter) s.fs)).2 = false) :
    (ImageExtract.extract_img_file env imgf s).1 = Except.ok none := by
  unfold ImageExtract.extract_img_file
  rw [if_neg (by simp [hext])]
  dsimp only
  rw [if_pos (show isfile imgf (pr s ("Extracting " ++ imgf)).fs = true from hfile)]
  dsimp only [ImageExtract._mkdir, appendClean, pr, runExec]
  rw [check_report_error_ok _ _ hrc]
  dsimp only
  rw [if_neg (by simp [hzero])]

/-- Witness for C8. -/
theorem extract_no_nested_img_yields_none_witness :
    splitextExt "/in/a.img" = ".img" ∧
    isfile "/in/a.img" s8.fs = true ∧
    (envId.exec ["7z", "x", "/in/a.img", "-o" ++ envId.gen s8.freshCounter]
        (mkdirp (envId.gen s8.freshCounter) s8.fs)).1.returncode = 0 ∧
    isfile (pathJoin (envId.gen s8.freshCounter) "0.img")
        (envId.exec ["7z", "x", "/in/a.img", "-o" ++ envId.gen s8.freshCounter]
          (mkdirp (envId.gen s8.freshCounter) s8.fs)).2 = false ∧
    (ImageExtract.extract_img_file envId "/in/a.img" s8).1 = Except.ok none :=
  ⟨by decide, by decide, by decide, by decide,
   extract_no_nested_img_yields_none envId "/in/a.img" s8 (by decide) (by decide)
     (by decide) (by decide)⟩

/-- C10: before the extraction result is renamed to the theme-named sibling
directory, any directory already at that target is removed recursively —
the trace opens with the `rmtree` of the target followed immediately by the
`mv`, and the only line printed is the success message (no warning, no
confirmation), independent of any install flag. -/
theorem main_rename_overwrites (env : Env) (outdir theme_name : Path) (s : SState)
    (htr : s.trace = [])
    (hdir : isdir (pathJoin (dirname outdir) theme_name) s.fs = true) :
    (main_move_to_gamedir env outdir theme_name s).1 =
      pathJoin (dirname outdir) theme_name ∧
    (∃ rc, (main_move_to_gamedir env outdir theme_name s).2.trace =
      [Ev.rmtreeEv (pathJoin (dirname outdir) theme_name),
       Ev.execEv ["mv", outdir, pathJoin (dirname outdir) theme_name] rc]) ∧
    (main_move_to_gamedir env outdir theme_name s).2.output =
      s.output ++
        ["successfully extracted the image to " ++ pathJoin (dirname outdir) theme_name] := by
  unfold main_move_to_gamedir
  dsimp only
  rw [if_pos hdir]
  refine ⟨rfl, ⟨(runExec env ["mv", outdir, pathJoin (dirname outdir) theme_name]
      (rmtreeS (pathJoin (dirname outdir) theme_name) s)).1.returncode, ?_⟩, ?_⟩
  · simp [pr, runExec, rmtreeS, htr]
  · simp [pr, runExec, rmtreeS]

/-- Witness for C10. -/
theorem main_rename_overwrites_witness :
    isdir (pathJoin (dirname "/cwd/out-1") "t") s10.fs = true ∧
    ((main_move_to_gamedir envId "/cwd/out-1" "t" s10).1 =
      pathJoin (dirname "/cwd/out-1") "t" ∧
    (∃ rc, (main_move_to_gamedir envId "/cwd/out-1" "t" s10).2.trace =
      [Ev.rmtreeEv (pathJoin (dirname "/cwd/out-1") "t"),
       Ev.execEv ["mv", "/cwd/out-1", pathJoin (dirname "/cwd/out-1") "t"] rc]) ∧
    (main_move_to_gamedir envId "/cwd/out-1" "t" s10).2.output =
      s10.output ++
        ["successfully extracted the image to " ++ pathJoin (dirname "/cwd/out-1") "t"]) :=
  ⟨by decide, main_rename_overwrites envId "/cwd/out-1" "t" s10 rfl (by decide)⟩

-- Trace composition lemmas

theorem appendBeforeExec_append_of_true {p : Path} {xs : List Ev}
    (h : appendBeforeExec p xs = true) (ys : List Ev) :
    appendBeforeExec p (xs ++ ys) = true := by
  induction xs with
  | nil => simp [appendBeforeExec] at h
  | cons e rest ih =>
    cases e with
    | appendEv q =>
      by_cases hq : (q == p) = true
      · simp [appendBeforeExec, hq]
      · simp only [appendBeforeExec, hq, Bool.false_eq_true, if_false] at h
        simp only [List.cons_append, appendBeforeExec, hq, Bool.false_eq_true, if_false]
        exact ih h
    | execEv c rc => simp [appendBeforeExec] at h
    | mkdirEv q =>
      simp only [appendBeforeExec] at h
      simp only [List.cons_append, appendBeforeExec]
      exact ih h
    | mkdirpEv q =>
      simp only [appendBeforeExec] at h
      simp only [List.cons_append, appendBeforeExec]
      exact ih h
    | rmtreeEv q =>
      simp only [appendBeforeExec] at h
      simp only [List.cons_append, appendBeforeExec]
      exact ih h

theorem appendBeforeExec_all_rmtree {p : Path} {evs : List Ev}
    (h : evs.all Ev.isRmtreeEv = true) : appendBeforeExec p evs = false := by
  induction evs with
  | nil => rfl
  | cons e rest ih => cases e <;> simp_all [appendBeforeExec, Ev.isRmtreeEv]

theorem appendBeforeExec_append_rmtree {p : Path} {xs evs : List Ev}
    (h : evs.all Ev.isRmtreeEv = true) :
    appendBeforeExec p (xs ++ evs) = appendBeforeExec p xs := by
  induction xs with
  | nil => simp [appendBeforeExec, appendBeforeExec_all_rmtree h]
  | cons e rest ih =>
    cases e with
    | appendEv q =>
      by_cases hq : (q == p) = true
      · simp [appendBeforeExec, hq]
      · simp only [List.cons_append, appendBeforeExec, hq, Bool.false_eq_true, if_false]
        exact ih
    | execEv c rc => simp [appendBeforeExec]
    | mkdirEv q =>
      simp only [List.cons_append, appendBeforeExec]
      exact ih
    | mkdirpEv q =>
      simp only [List.cons_append, appendBeforeExec]
      exact ih
    | rmtreeEv q =>
      simp only [List.cons_append, appendBeforeExec]
      exact ih

theorem violations_all_rmtree {evs : List Ev} (h : evs.all Ev.isRmtreeEv = true) :
    violations evs = [] := by
  induction evs with
  | nil => rfl
  | cons e rest ih => cases e <;> simp_all [violations, Ev.isRmtreeEv]

theorem violations_append_rmtree {xs evs : List Ev} (h : evs.all Ev.isRmtreeEv = true) :
    violations (xs ++ evs) = violations xs := by
  induction xs with
  | nil => simpa [violations] using violations_all_rmtree h
  | cons e rest ih =>
    cases e with
    | mkdirEv q =>
      have hab : appendBeforeExec q (rest ++ evs) = appendBeforeExec q rest :=
        appendBeforeExec_append_rmtree h
      by_cases hq : appendBeforeExec q rest = true
      · simp [violations, hab, hq, ih]
      · simp [violations, hab, hq, ih]
    | appendEv q => simp only [List.cons_append, violations]; exact ih
    | execEv c rc => simp only [List.cons_append, violations]; exact ih
    | mkdirpEv q => simp only [List.cons_append, violations]; exact ih
    | rmtreeEv q => simp only [List.cons_append, violations]; exact ih

theorem violations_append_of_clean {xs : List Ev} (h : cleanBeforeFail xs = true)
    (ys : List Ev) : violations (xs ++ ys) = violations ys := by
  induction xs with
  | nil => rfl
  | cons e rest ih =>
    cases e with
    | mkdirEv q =>
      simp only [cleanBeforeFail, Bool.and_eq_true] at h
      have h1 := appendBeforeExec_append_of_true h.1 ys
      simp [violations, h1, ih h.2]
    | appendEv q =>
      simp only [cleanBeforeFail] at h
      simp only [List.cons_append, violations]
      exact ih h
    | execEv c rc =>
      simp only [cleanBeforeFail] at h
      simp only [List.cons_append, violations]
      exact ih h
    | mkdirpEv q =>
      simp only [cleanBeforeFail] at h
      simp only [List.cons_append, violations]
      exact ih h
    | rmtreeEv q =>
      simp only [cleanBeforeFail] at h
      simp only [List.cons_append, violations]
      exact ih h

theorem appendsOf_append (xs ys : List Ev) :
    appendsOf (xs ++ ys) = appendsOf xs ++ appendsOf ys := by
  induction xs with
  | nil => rfl
  | cons e rest ih => cases e <;> simp [appendsOf, ih]

theorem appendsOf_all_rmtree {evs : List Ev} (h : evs.all Ev.isRmtreeEv = true) :
    appendsOf evs = [] := by
  induction evs with
  | nil => rfl
  | cons e rest ih => cases e <;> simp_all [appendsOf, Ev.isRmtreeEv]

-- Inversion lemmas for check_report_error as it appears in matches.

theorem check_report_error_error_inv {r : CmdResult} {s sx : SState} {e : PyErr}
    (heq : ImageExtract.check_report_error r s = (Except.error e, sx)) :
    ∃ evs, sx.trace = s.trace ++ evs ∧ evs.all Ev.isRmtreeEv = true ∧
      sx.items_to_clean = s.items_to_clean := by
  unfold ImageExtract.check_report_error at heq
  by_cases h : (r.returncode != 0) = true
  · rw [if_pos h] at heq
    dsimp only at heq
    obtain ⟨s', evs, hok, hitems, hout, hfc, htr2, hall, _, _⟩ :=
      do_cleanup_spec (pr s (showCmdResult r))
    rw [hok] at heq
    dsimp only at heq
    have hsx : s' = sx := congrArg Prod.snd heq
    subst hsx
    exact ⟨evs, by simpa [pr] using htr2, hall, by simpa [pr] using hitems⟩
  · rw [if_neg h] at heq
    simp at heq

theorem check_report_error_ok_inv {r : CmdResult} {s sx : SState} {u : Unit}
    (heq : ImageExtract.check_report_error r s = (Except.ok u, sx)) :
    sx = s ∧ r.returncode = 0 := by
  unfold ImageExtract.check_report_error at heq
  by_cases h : (r.returncode != 0) = true
  · rw [if_pos h] at heq
    dsimp only at heq
    split at heq <;> simp at heq
  · rw [if_neg h] at heq
    exact ⟨(congrArg Prod.snd heq).symm, by simpa using h⟩

/-- Trace specification of `extract_img_file`: the trace grows by events in
which the only possible unregistered directory (a `mkdirEv` not followed by
its `appendEv` before an external command) is the directory created for the
nested `0.img` (the one named by the generator at index `freshCounter + 1`);
the only path ever appended to `items_to_clean` is the first created
directory; and a returned result directory is exactly that nested one. -/
theorem extract_img_file_trace_spec (env : Env) (imgf : Path) (s : SState) :
    ∃ evs, (ImageExtract.extract_img_file env imgf s).2.trace = s.trace ++ evs ∧
      (∀ p ∈ violations evs, p = env.gen (s.freshCounter + 1)) ∧
      (∀ p ∈ appendsOf evs, p = env.gen s.freshCounter) ∧
      (∀ q, (ImageExtract.extract_img_file env imgf s).1 = Except.ok (some q) →
        q = env.gen (s.freshCounter + 1)) ∧
      (ImageExtract.extract_img_file env imgf s).2.items_to_clean =
        s.items_to_clean ++ appendsOf evs := by
  unfold ImageExtract.extract_img_file
  by_cases hext : (splitextExt imgf != ".img") = true
  · rw [if_pos hext]
    obtain ⟨s', evs, hok, hitems, hout, hfc, htr2, hall, _, _⟩ := do_cleanup_spec s
    rw [hok]
    refine ⟨evs, htr2, ?_, ?_, ?_, ?_⟩
    · simp [violations_all_rmtree hall]
    · simp [appendsOf_all_rmtree hall]
    · intro q hq
      simp at hq
    · simp [appendsOf_all_rmtree hall, hitems]
  · rw [if_neg hext]
    dsimp only [pr, ImageExtract._mkdir, appendClean, runExec]
    by_cases hfile : isfile imgf s.fs = true
    · rw [if_pos hfile]
      split
      case _ e sx heq =>
        obtain ⟨evs_c, htr2, hall, hitems⟩ := check_report_error_error_inv heq
        dsimp only at htr2 hitems
        refine ⟨[Ev.mkdirEv (env.gen s.freshCounter),
          Ev.appendEv (env.gen s.freshCounter),
          Ev.execEv ["7z", "x", imgf, "-o" ++ env.gen s.freshCounter]
            (env.exec ["7z", "x", imgf, "-o" ++ env.gen s.freshCounter]
              (mkdirp (env.gen s.freshCounter) s.fs)).1.returncode] ++ evs_c,
          ?_, ?_, ?_, ?_, ?_⟩
        · rw [htr2]
          simp
        · rw [violations_append_rmtree hall]
          simp [violations, appendBeforeExec]
        · rw [appendsOf_append, appendsOf_all_rmtree hall]
          simp [appendsOf]
        · intro q hq
          simp at hq
        · rw [hitems, appendsOf_append, appendsOf_all_rmtree hall]
          simp [appendsOf]
      case _ u sok heq =>
        obtain ⟨rfl, hrc⟩ := check_report_error_ok_inv heq
        split
        · -- a nested 0.img is present
          split
          case _ e2 sx2 heq2 =>
            obtain ⟨evs_c2, htr3, hall2, hitems2⟩ := check_report_error_error_inv heq2
            dsimp only at htr3 hitems2
            refine ⟨[Ev.mkdirEv (env.gen s.freshCounter),
              Ev.appendEv (env.gen s.freshCounter),
              Ev.execEv ["7z", "x", imgf, "-o" ++ env.gen s.freshCounter]
                (env.exec ["7z", "x", imgf, "-o" ++ env.gen s.freshCounter]
                  (mkdirp (env.gen s.freshCounter) s.fs)).1.returncode,
              Ev.mkdirEv (env.gen (s.freshCounter + 1)),
              Ev.execEv ["7z", "x",
                  pathJoin (env.gen s.freshCounter) "0.img",
                  "-o" ++ env.gen (s.freshCounter + 1)]
                (env.exec ["7z", "x",
                    pathJoin (env.gen s.freshCounter) "0.img",
                    "-o" ++ env.gen (s.freshCounter + 1)]
                  (mkdirp (env.gen (s.freshCounter + 1))
                    (env.exec ["7z", "x", imgf, "-o" ++ env.gen s.freshCounter]
                      (mkdirp (env.gen s.freshCounter) s.fs)).2)).1.returncode] ++ evs_c2,
              ?_, ?_, ?_, ?_, ?_⟩
            · rw [htr3]
              simp
            · rw [violations_append_rmtree hall2]
              simp [violations, appendBeforeExec]
            · rw [appendsOf_append, appendsOf_all_rmtree hall2]
              simp [appendsOf]
            · intro q hq
              simp at hq
            · rw [hitems2, appendsOf_append, appendsOf_all_rmtree hall2]
              simp [appendsOf]
          case _ u2 sok2 heq2 =>
            obtain ⟨rfl, hrc2⟩ := check_report_error_ok_inv heq2
            refine ⟨[Ev.mkdirEv (env.gen s.freshCounter),
              Ev.appendEv (env.gen s.freshCounter),
              Ev.execEv ["7z", "x", imgf, "-o" ++ env.gen s.freshCounter]
                (env.exec ["7z", "x", imgf, "-o" ++ env.gen s.freshCounter]
                  (mkdirp (env.gen s.freshCounter) s.fs)).1.returncode,
              Ev.mkdirEv (env.gen (s.freshCounter + 1)),
              Ev.execEv ["7z", "x",
                  pathJoin (env.gen s.freshCounter) "0.img",
                  "-o" ++ env.gen (s.freshCounter + 1)]
                (env.exec ["7z", "x",
                    pathJoin (env.gen s.freshCounter) "0.img",
                    "-o" ++ env.gen (s.freshCounter + 1)]
                  (mkdirp (env.gen (s.freshCounter + 1))
                    (env.exec ["7z", "x", imgf, "-o" ++ env.gen s.freshCounter]
                      (mkdirp (env.gen s.freshCounter) s.fs)).2)).1.returncode],
              ?_, ?_, ?_, ?_, ?_⟩
            · dsimp only
              simp
            · simp [violations, appendBeforeExec]
            · simp [appendsOf]
            · intro q hq
              simp only [Prod.fst] at hq
              have : some (env.gen (s.freshCounter + 1)) = some q := by
                simpa using hq
              simp at this
              exact this.symm
            · dsimp only
              simp [appendsOf]
        · -- no nested 0.img
          refine ⟨[Ev.mkdirEv (env.gen s.freshCounter),
            Ev.appendEv (env.gen s.freshCounter),
            Ev.execEv ["7z", "x", imgf, "-o" ++ env.gen s.freshCounter]
              (env.exec ["7z", "x", imgf, "-o" ++ env.gen s.freshCounter]
                (mkdirp (env.gen s.freshCounter) s.fs)).1.returncode],
            ?_, ?_, ?_, ?_, ?_⟩
          · dsimp only
            simp
          · simp [violations, appendBeforeExec]
          · simp [appendsOf]
          · intro q hq
            simp at hq
          · dsimp only
            simp [appendsOf]
    · rw [if_neg hfile]
      refine ⟨[], by simp, by simp [violations], by simp [appendsOf], ?_, by simp [appendsOf]⟩
      intro q hq
      simp at hq

/-- Lifting of `extract_img_file_trace_spec` to a call made after a prefix
of events that respects the registration discipline. -/
theorem extract_after_prefix (env : Env) (imgf : Path) (s3 : SState)
    (hinj : ∀ i j, env.gen i = env.gen j → i = j)
    (hclean : cleanBeforeFail s3.trace = true)
    (happ : ∀ p ∈ appendsOf s3.trace, ∃ i, i < s3.freshCounter ∧ p = env.gen i)
    (hitm : ∀ p ∈ s3.items_to_clean, ∃ i, i < s3.freshCounter ∧ p = env.gen i) :
    ∀ p ∈ violations ((ImageExtract.extract_img_file env imgf s3).2.trace),
      p ∉ appendsOf ((ImageExtract.extract_img_file env imgf s3).2.trace) ∧
      p ∉ (ImageExtract.extract_img_file env imgf s3).2.items_to_clean ∧
      (∀ q, (ImageExtract.extract_img_file env imgf s3).1 = Except.ok (some q) →
        q = p) := by
  obtain ⟨evs, htr, hviol, happ2, hres, hitm2⟩ := extract_img_file_trace_spec env imgf s3
  intro p hp
  rw [htr, violations_append_of_clean hclean] at hp
  have hpv : p = env.gen (s3.freshCounter + 1) := hviol p hp
  have hne : ∀ i, i < s3.freshCounter + 1 → p ≠ env.gen i := by
    intro i hi hc
    rw [hpv] at hc
    have := hinj _ _ hc
    omega
  refine ⟨?_, ?_, ?_⟩
  · rw [htr, appendsOf_append]
    intro hmem
    rcases List.mem_append.mp hmem with hm | hm
    · obtain ⟨i, hi, hpi⟩ := happ p hm
      exact hne i (by omega) hpi
    · exact hne s3.freshCounter (by omega) (happ2 p hm)
  · rw [hitm2]
    intro hmem
    rcases List.mem_append.mp hmem with hm | hm
    · obtain ⟨i, hi, hpi⟩ := hitm p hm
      exact hne i (by omega) hpi
    · exact hne s3.freshCounter (by omega) (happ2 p hm)
  · intro q hq
    rw [hpv]
    exact hres q hq

/-- C1 amended: in a run of the Extractor, every directory created by
`_mkdir` is appended to `items_to_clean` before any subsequent external
command, with one exception — the directory created in `extract_img_file`
for unwrapping the nested `0.img` is never added to the cleanup list (the
`7z` call on the nested image follows its creation with no registration);
when extraction succeeds, that unregistered directory is exactly the
returned result directory. -/
theorem mkdir_registered_before_tool_amended (env : Env) (fp : Path)
    (fparg : Option Path) (s : SState)
    (htr : s.trace = []) (hit : s.items_to_clean = [])
    (hinj : ∀ i j, env.gen i = env.gen j → i = j) :
    ∀ p ∈ violations ((ImageExtract.run env fp fparg s).2.trace),
      p ∉ appendsOf ((ImageExtract.run env fp fparg s).2.trace) ∧
      p ∉ (ImageExtract.run env fp fparg s).2.items_to_clean ∧
      (∀ q, (ImageExtract.run env fp fparg s).1 = Except.ok (some q) → q = p) := by
  unfold ImageExtract.run
  dsimp only [ImageExtract._mkdir, appendClean, runExec]
  split
  · -- tarball branch
    split
    case _ e sx heq =>
      obtain ⟨evs_c, htr2, hall, hitems⟩ := check_report_error_error_inv heq
      dsimp only at htr2
      intro p hp
      dsimp only at hp
      rw [htr2, violations_append_rmtree hall] at hp
      simp [htr, violations, appendBeforeExec] at hp
    case _ u sok heq =>
      obtain ⟨rfl, hrc⟩ := check_report_error_ok_inv heq
      split
      · -- IndexError on an empty listing
        intro p hp
        dsimp only at hp
        simp [htr, violations, appendBeforeExec] at hp
      · -- image-unwrap call
        refine extract_after_prefix env _ _ hinj ?_ ?_ ?_
        · dsimp only
          simp [htr, cleanBeforeFail, appendBeforeExec]
        · dsimp only
          intro p hp
          simp [htr, appendsOf] at hp
          subst hp
          exact ⟨s.freshCounter, by omega, rfl⟩
        · dsimp only
          intro p hp
          simp [hit] at hp
          subst hp
          exact ⟨s.freshCounter, by omega, rfl⟩
  · split
    · -- zip / 7z branch
      split
      case _ e sx heq =>
        obtain ⟨evs_c, htr2, hall, hitems⟩ := check_report_error_error_inv heq
        dsimp only at htr2
        intro p hp
        dsimp only at hp
        rw [htr2, violations_append_rmtree hall] at hp
        simp [htr, violations, appendBeforeExec] at hp
      case _ u sok heq =>
        obtain ⟨rfl, hrc⟩ := check_report_error_ok_inv heq
        split
        case _ e2 sx2 heq2 =>
          obtain ⟨evs_c2, htr3, hall2, hitems2⟩ := check_report_error_error_inv heq2
          dsimp only at htr3
          intro p hp
          dsimp only at hp
          rw [htr3, violations_append_rmtree hall2] at hp
          simp [htr, violations, appendBeforeExec] at hp
        case _ u2 sok2 heq2 =>
          obtain ⟨rfl, hrc2⟩ := check_report_error_ok_inv heq2
          split
          · -- IndexError on an empty listing
            intro p hp
            dsimp only at hp
            simp [htr, violations, appendBeforeExec] at hp
          · -- image-unwrap call
            refine extract_after_prefix env _ _ hinj ?_ ?_ ?_
            · dsimp only
              simp [htr, cleanBeforeFail, appendBeforeExec]
            · dsimp only
              intro p hp
              simp [htr, appendsOf] at hp
              rcases hp with rfl | rfl
              · exact ⟨s.freshCounter, by omega, rfl⟩
              · exact ⟨s.freshCounter + 1, by omega, rfl⟩
            · dsimp only
              intro p hp
              simp [hit] at hp
              rcases hp with rfl | rfl
              · exact ⟨s.freshCounter, by omega, rfl⟩
              · exact ⟨s.freshCounter + 1, by omega, rfl⟩
    · -- disk image directly, or unrecognized extension
      split <;>
      · refine extract_after_prefix env _ _ hinj ?_ ?_ ?_
        · dsimp only
          simp [htr, cleanBeforeFail, appendBeforeExec]
        · dsimp only
          intro p hp
          simp [htr, appendsOf] at hp
          subst hp
          exact ⟨s.freshCounter, by omega, rfl⟩
        · dsimp only
          intro p hp
          simp [hit] at hp
          subst hp
          exact ⟨s.freshCounter, by omega, rfl⟩

/-- C1 counterexample: a successful end-to-end extraction in which not every
directory created by `_mkdir` is appended to `items_to_clean` before the
next external command — the directory created for the nested `0.img`
(`"aaa"`, the third generated name) is followed directly by a `7z` call and
is never registered. -/
theorem mkdir_registered_cex :
    (ImageExtract.run envId "/in/a.img" none s1cex).1 = Except.ok (some "aaa") ∧
    cleanBeforeFail ((ImageExtract.run envId "/in/a.img" none s1cex).2.trace) = false := by
  decide

/-- Injectivity of the sample fresh-name generator. -/
theorem genInjAux (i j : Nat)
    (h : String.mk (List.replicate (i + 1) 'a') = String.mk (List.replicate (j + 1) 'a')) :
    i = j := by
  have h2 := congrArg (fun t => t.data.length) h
  simpa using h2

/-- Witness for the amended C1: on the concrete successful extraction, the
single unregistered directory is `"aaa"`, it is never appended to the
cleanup list, and it is the returned extraction result. -/
theorem mkdir_registered_amended_witness :
    s1cex.trace = [] ∧ s1cex.items_to_clean = [] ∧
    "aaa" ∈ violations ((ImageExtract.run envId "/in/a.img" none s1cex).2.trace) ∧
    ("aaa" ∉ appendsOf ((ImageExtract.run envId "/in/a.img" none s1cex).2.trace) ∧
     "aaa" ∉ (ImageExtract.run envId "/in/a.img" none s1cex).2.items_to_clean ∧
     (∀ q, (ImageExtract.run envId "/in/a.img" none s1cex).1 = Except.ok (some q) →
        q = "aaa")) :=
  ⟨rfl, rfl, by decide,
   mkdir_registered_before_tool_amended envId "/in/a.img" none s1cex rfl rfl
     (fun i j h => genInjAux i j h) "aaa" (by decide)⟩

end Scribble
